import Mathlib

/-!
Verification of the ELFE/XL evaluation-pipeline specification against the
repository sources: the tree algebra, the rewrite binder (compiler-args.cpp),
the operator-precedence parser (parser.cpp), the syntax-file reader
(syntax.cpp), context helpers (context.h) and the interpreter's closure
construction (interpreter.h) are shallowly embedded below, and the claims
about them are settled as theorems at the end of the file.

External collaborators whose implementation is not among the sources
(types.cpp, context.cpp, the scanner) are abstracted as oracle parameters;
each such definition carries a comment saying what it models.
-/

namespace ELFE

-- ===========================================================================
-- The tree algebra (tree.h; spec section 3)
-- ===========================================================================

/-- The ELFE tree algebra.  tree.h is not among the sources; the spec
(section 3) lists the five leaf and three compound kinds in this order, and
the sources rely on that order (for instance interpreter.h tests
`valueKind >= NAME`).  Source positions and the identity-keyed info chain
are omitted: no claim below depends on them.  The payload of a `Real` is
modelled as a rational standing for the C++ double. -/
inductive Tree where
  | Integer (value : Int)
  | Real (value : Rat)
  | Text (value opening closing : String)
  | Name (value : String)
  | Block (child : Tree) (opening closing : String)
  | Prefix (left right : Tree)
  | Postfix (left right : Tree)
  | Infix (name : String) (left right : Tree)
deriving DecidableEq, Repr

/-- The kind enumeration index of a node (tree.h order, spec section 3). -/
def Tree.kindIndex : Tree → Nat
  | .Integer _ => 0
  | .Real _ => 1
  | .Text _ _ _ => 2
  | .Name _ => 3
  | .Block _ _ _ => 4
  | .Prefix _ _ => 5
  | .Postfix _ _ => 6
  | .Infix _ _ _ => 7

-- ===========================================================================
-- Helpers from context.h (src/unnamed/part_002)
-- ===========================================================================

/-- context.h, `RewriteDefined`: find what is actually defined from the shape
of the left of an `is`.  One `as`/`:` layer, then one `when` layer, then one
outer block are stripped, in that order. -/
def RewriteDefined (form0 : Tree) : Tree :=
  -- Check 'X as integer' or 'X : integer': we define X
  let form1 :=
    match form0 with
    | .Infix n l r => if n = "as" ∨ n = ":" then l else .Infix n l r
    | t => t
  -- Check 'X when Condition': we define X
  let form2 :=
    match form1 with
    | .Infix n l r => if n = "when" then l else .Infix n l r
    | t => t
  -- Check outermost (X): we define X
  match form2 with
  | .Block c _ _ => c
  | t => t

/-- context.h, `RewriteType`: if we have a declaration with 'X as Type',
return Type. -/
def RewriteType (what : Tree) : Option Tree :=
  match what with
  | .Infix n _ r => if n = "as" then some r else none
  | _ => none

/-- The behaviour claim C6 describes, read from the spec's words: all
`when`, `as` and `:` annotations and outer blocks are stripped, in any
combination, until the defined form is reached. -/
def RewriteDefinedClaimed (t : Tree) : Tree :=
  match t with
  | .Infix n l r => if n = "as" ∨ n = ":" ∨ n = "when" then RewriteDefinedClaimed l
                    else .Infix n l r
  | .Block c _ _ => RewriteDefinedClaimed c
  | t => t

/-- A form that `RewriteDefined` would strip further: a type annotation, a
guard, or a block. -/
def isAnnotated : Tree → Bool
  | .Infix n _ _ => n = "as" ∨ n = ":" ∨ n = "when"
  | .Block _ _ _ => true
  | _ => false

/-- context.h, `Context::Rehash`: `(h>>1) | (h<<31)` in `ulong` arithmetic.
`ulong` is `typedef unsigned long` (base.h), whose width `w` depends on the
platform (32 bits on 32-bit targets, 64 bits on LP64 targets), so the value
is taken modulo `2 ^ w`. -/
def Context.Rehash (w : Nat) (h : Nat) : Nat :=
  (h >>> 1) ||| ((h <<< 31) % 2 ^ w)

-- ===========================================================================
-- The rewrite-call binder (src/src/compiler-args.cpp)
-- ===========================================================================

/-- compiler-args.h is not among the sources; the spec (glossary) gives the
three binding strengths with FAILED weakest and PERFECT strongest, matching
the `sname` table of compiler-args.cpp ("impossible, possible,
unconditional"). -/
inductive BindingStrength where
  | FAILED
  | POSSIBLE
  | PERFECT
deriving DecidableEq, Repr

def BindingStrength.toNat : BindingStrength → Nat
  | .FAILED => 0
  | .POSSIBLE => 1
  | .PERFECT => 2

/-- The weaker of two strengths: compiler-args.cpp writes
`if (left > right) left = right`. -/
def BindingStrength.weaker (l r : BindingStrength) : BindingStrength :=
  if l.toNat > r.toNat then r else l

/-- Global type names of the runtime (basics.cpp, not among the sources):
modelled from the spec as plain `Name` trees. -/
def integer_type : Tree := .Name "integer"

def real_type : Tree := .Name "real"

def text_type : Tree := .Name "text"

def boolean_type : Tree := .Name "boolean"

def name_type : Tree := .Name "name"

def block_type : Tree := .Name "block"

def infix_type : Tree := .Name "infix"

def prefix_type : Tree := .Name "prefix"

def postfix_type : Tree := .Name "postfix"

def tree_type : Tree := .Name "tree"

/-- The boolean truth value `xl_true` (basics, not among the sources):
modelled from the spec's "G evaluates to boolean true". -/
def xl_true : Tree := .Name "true"

/-- The mutable per-candidate state of a `RewriteCandidate`.
compiler-args.h is not among the sources: per the spec (section 4.6) a
candidate accumulates runtime conditions (value equalities, added by
`Condition(value, form)`), runtime kind checks (added by
`KindCondition(value, kind)`), argument bindings (`bindings.push_back`),
and local context definitions (`context->Define`). -/
structure RCState where
  conditions : List (Tree × Tree)
  kindConditions : List (Tree × Nat)
  bindings : List (String × Tree)
  localDefs : List (Tree × Tree)
deriving DecidableEq, Repr

def initRCState : RCState := ⟨[], [], [], []⟩

/-- `Condition(value, form)`: record that `value` must equal `form` at run
time (modelled from the spec; compiler-args.h is not among the sources). -/
def rcCondition (s : RCState) (value form : Tree) : RCState :=
  { s with conditions := s.conditions ++ [(value, form)] }

/-- `KindCondition(value, kind)` (modelled from the spec, as above). -/
def rcKindCondition (s : RCState) (value : Tree) (k : Nat) : RCState :=
  { s with kindConditions := s.kindConditions ++ [(value, k)] }

/-- `Unconditional()`: no runtime condition was recorded (modelled from the
spec: binding is strong only "when the form matches entirely at compile
time", i.e. no value or kind condition is pending). -/
def RCState.Unconditional (s : RCState) : Bool :=
  s.conditions.isEmpty && s.kindConditions.isEmpty

/-- The type-inference collaborators of the binder.  types.cpp and
context.cpp are not among the sources (only the types.h and context.h
declarations), so `Types::Type`, `Types::AssignType`, `Types::Unify`,
`Types::DeclaredTypeName`, `Types::NewType` and `Context::Bound` are
abstracted as oracle functions; a null `Tree *` result is `none`.
`bound` receives the candidate's accumulated local definitions because
`Context::Bound` consults the context that `Bind` extends via `Define`. -/
structure TypesOracle where
  valueType : Tree → Option Tree
  btype : Tree → Option Tree
  assignType : Tree → Option Tree → Option Tree
  declaredTypeName : Option Tree → Option Tree
  btUnify : Option Tree → Option Tree → Bool
  bound : List (Tree × Tree) → Tree → Option Tree

/-- compiler-args.cpp, `RewriteCandidate::Unify`: when the declared value
type is the universal `tree` type, record a runtime kind condition chosen
from the value type's kind and the form's declared type, then delegate to
`Types::Unify` (the oracle). -/
def RewriteCandidate.Unify (o : TypesOracle) (valueType formType : Option Tree)
    (value : Tree) (s : RCState) : Bool × RCState :=
  let refType := o.declaredTypeName valueType
  let s :=
    if refType = some tree_type then
      let vrefType := o.declaredTypeName formType
      match valueType with
      | some vt =>
        let k := vt.kindIndex
        if k = 0 ∨ vrefType = some integer_type then rcKindCondition s value 0
        else if k = 1 ∨ vrefType = some real_type then rcKindCondition s value 1
        else if k = 2 ∨ vrefType = some text_type then rcKindCondition s value 2
        else if vrefType = some name_type ∨ vrefType = some boolean_type then
          rcKindCondition s value 3
        else if vrefType = some block_type then rcKindCondition s value 4
        else if k = 7 ∨ vrefType = some infix_type then rcKindCondition s value 7
        else if vrefType = some prefix_type then rcKindCondition s value 5
        else if vrefType = some postfix_type then rcKindCondition s value 6
        else s
      | none => s  -- DeclaredTypeName of a null type is never `tree`
    else s
  (o.btUnify valueType formType, s)

/-- compiler-args.cpp, `RewriteCandidate::Bind`: attempt to bind `value` to
the pattern `form`.  `defined` is `RewriteDefined(rewrite->left)`, the
defined form of the candidate's pattern (the C++ compares it to a `Name`
form by pointer; the only node it can coincide with is the initial form
itself, so structural equality is used).  `BindBinary` is inlined in the
`Prefix` and `Postfix` cases. -/
def RewriteCandidate.Bind (o : TypesOracle) (defined : Tree) :
    Tree → Tree → RCState → BindingStrength × RCState
  | .Integer fv, value, s =>
    match value with
    | .Integer iv => (if iv = fv then .PERFECT else .FAILED, s)
    | _ =>
      let type := o.valueType value
      let (ok, s) := RewriteCandidate.Unify o type (some integer_type) value s
      if ok then (.POSSIBLE, rcCondition s value (.Integer fv))
      else (.FAILED, s)
  | .Real fv, value, s =>
    match value with
    | .Real iv => (if iv = fv then .PERFECT else .FAILED, s)
    | _ =>
      let type := o.valueType value
      let (ok, s) := RewriteCandidate.Unify o type (some real_type) value s
      if ok then (.POSSIBLE, rcCondition s value (.Real fv))
      else (.FAILED, s)
  | .Text fv fo fc, value, s =>
    match value with
    | .Text iv _ _ => (if iv = fv then .PERFECT else .FAILED, s)
    | _ =>
      let type := o.valueType value
      let (ok, s) := RewriteCandidate.Unify o type (some text_type) value s
      if ok then (.POSSIBLE, rcCondition s value (.Text fv fo fc))
      else (.FAILED, s)
  | .Name n, value, s =>
    -- Ignore function name if that is all we have
    if defined = Tree.Name n then (.PERFECT, s)
    else
      -- Check if what we have as an expression evaluates correctly
      let type := o.valueType value
      if type = none then (.FAILED, s)
      else
        -- Test if the name is already bound, and if so, check values
        let step :=
          match o.bound s.localDefs (.Name n) with
          | some b =>
            if b ≠ Tree.Name n then
              let boundType := o.valueType b
              let (ok, s1) := RewriteCandidate.Unify o type boundType value s
              if ok then (false, false, rcCondition s1 value (.Name n))
              else (true, false, s1)
            else (false, true, s)
          | none => (false, true, s)
        match step with
        | (earlyFail, needArg, s) =>
          if earlyFail then (.FAILED, s)
          else
            -- Check if we can unify the value and name types
            let nameType := o.btype (.Name n)
            let (ok2, s) := RewriteCandidate.Unify o type nameType value s
            if ¬ ok2 then (.FAILED, s)
            else if needArg then
              -- Enter the name in the context and in the bindings
              (.POSSIBLE,
               { s with localDefs := s.localDefs ++ [(Tree.Name n, value)],
                        bindings := s.bindings ++ [(n, value)] })
            else (.POSSIBLE, s)
  | .Infix fn fl fr, value, s =>
    if fn = ":" ∨ fn = "as" then
      -- Assign the given type to the declared expression
      let type := o.assignType fl (some fr)
      let (r, s) := RewriteCandidate.Bind o defined fl value s
      if r = .FAILED then (.FAILED, s)
      else
        -- Add type binding with the given type
        let valueType := o.btype value
        let (ok, s) := RewriteCandidate.Unify o valueType type value s
        if ¬ ok then (.FAILED, s)
        else (if s.Unconditional then .PERFECT else .POSSIBLE, s)
    else if fn = "when" then
      -- We have a guard - first test if we can bind the left part
      let (r, s) := RewriteCandidate.Bind o defined fl value s
      if r = .FAILED then (.FAILED, s)
      else
        -- Check if we can evaluate the guard
        if o.btype fr = none then (.FAILED, s)
        else
          -- Check that the type of the guard is a boolean
          let guardType := o.btype fr
          let (ok, s) := RewriteCandidate.Unify o guardType (some boolean_type) fr s
          if ¬ ok then (.FAILED, s)
          else
            -- Add the guard condition; the guard makes the binding weak
            (.POSSIBLE, rcCondition s fr xl_true)
    else
      let structural :=
        match value with
        | .Infix vn vl vr => if fn = vn then some (vl, vr) else none
        | _ => none
      match structural with
      | some (vl, vr) =>
        -- If we match the infix name, we can bind left and right
        let (l, s) := RewriteCandidate.Bind o defined fl vl s
        if l = .FAILED then (.FAILED, s)
        else
          let (r, s) := RewriteCandidate.Bind o defined fr vr s
          (l.weaker r, s)
      | none =>
        -- We may have an expression that evaluates as an infix.
        -- Check if what we have as an expression evaluates correctly
        let type := o.btype value
        if type = none then (.FAILED, s)
        else
          -- Then check if the type matches
          let (ok, s) := RewriteCandidate.Unify o type (some infix_type) value s
          if ¬ ok then (.FAILED, s)
          else
            -- We need a runtime pattern match (weak binding)
            let infixLeft := Tree.Prefix (.Name "left") value
            let (l, s) := RewriteCandidate.Bind o defined fl infixLeft s
            if l = .FAILED then (.FAILED, s)
            else
              let infixRight := Tree.Prefix (.Name "right") value
              let (r, s) := RewriteCandidate.Bind o defined fr infixRight s
              -- Add a condition on the infix name
              let infixName := Tree.Prefix (.Name "name") value
              if o.btype infixName = none then (.FAILED, s)
              else
                let infixRequiredName := Tree.Text fn "\"" "\""
                if o.btype infixRequiredName = none then (.FAILED, s)
                else
                  let s := rcCondition s infixName infixRequiredName
                  (l.weaker r, s)
  | .Prefix pl pr, value, s =>
    -- Must match a prefix with the same name (BindBinary)
    match value with
    | .Prefix vl vr =>
      match pl, vl with
      | .Name fn, .Name vn =>
        if fn = vn then RewriteCandidate.Bind o defined pr vr s
        else (.FAILED, s)
      | _, _ => (.FAILED, s)
    | _ => (.FAILED, s)
  | .Postfix pl pr, value, s =>
    -- Must match a postfix with the same name (BindBinary, arguments swapped)
    match value with
    | .Postfix vl vr =>
      match pr, vr with
      | .Name fn, .Name vn =>
        if fn = vn then RewriteCandidate.Bind o defined pl vl s
        else (.FAILED, s)
      | _, _ => (.FAILED, s)
    | _ => (.FAILED, s)
  | .Block c _ _, value, s =>
    -- Ignore blocks, just look inside
    RewriteCandidate.Bind o defined c value s

/-- compiler-args.cpp, `RewriteCalls::Check`: detection of built-in and C
initializers (`init` is a name "C", or a prefix whose left is the name
"builtin" or "C"). -/
def isBuiltinInit (init : Tree) : Bool :=
  let b1 :=
    match init with
    | .Name n => n == "C"
    | _ => false
  let b2 :=
    match init with
    | .Prefix (.Name pf) _ => pf == "builtin" || pf == "C"
    | _ => false
  b1 || b2

/-- The remaining collaborators of `RewriteCalls::Check` (all from types.cpp,
which is not among the sources): `Types::EvaluateType`, `Types::AssignType`
on the candidate types, the type computed for the initializer after
`CreateScope`/`ProcessDeclarations`, `Types::NewType`, and the error count
of the local `Errors` sink at the end of the sequence. -/
structure CheckEnv where
  evaluateType : Tree → Option Tree
  assignType : Tree → Option Tree → Option Tree
  initType : Tree → Option Tree
  newType : Tree → Tree
  hadErrors : Bool

/-- Outcome of `RewriteCalls::Check`: the final binding strength, whether the
candidate was pushed onto `candidates`, and the returned `Tree *` (`none` is
C++ NULL, which lets `Context::Lookup` keep enumerating). -/
structure CheckResult where
  binding : BindingStrength
  recorded : Bool
  result : Option Tree
deriving DecidableEq, Repr

/-- `if (!x) binding = FAILED`: degrade a binding strength when a type
computation came back null. -/
def stepOpt (b : BindingStrength) (t : Option Tree) : BindingStrength :=
  if t = none then .FAILED else b

/-- `RewriteCalls::Check`, lines 577-582: `if (type)` assign the declared
type to the initializer and the expression; a null outcome degrades the
binding. -/
def checkBinding1 (env : CheckEnv) (what init : Tree) (type0 : Option Tree)
    (b0 : BindingStrength) : BindingStrength :=
  if type0 = none then b0
  else stepOpt b0 (env.assignType what (env.assignType init type0))

/-- The type after the same step. -/
def checkType1 (env : CheckEnv) (what init : Tree) (type0 : Option Tree) :
    Option Tree :=
  if type0 = none then none
  else env.assignType what (env.assignType init type0)

/-- `RewriteCalls::Check`, lines 586-610: for a non-built-in initializer,
process its declarations and compute its type; a null type degrades the
binding. -/
def checkBinding2 (env : CheckEnv) (init : Tree) (b1 : BindingStrength) :
    BindingStrength :=
  if b1 ≠ .FAILED ∧ ¬ isBuiltinInit init then stepOpt b1 (env.initType init)
  else b1

/-- The type after the same step: the initializer's type for a non-built-in,
a fresh generic type for a built-in without declared type. -/
def checkType2 (env : CheckEnv) (init : Tree) (declType type1 : Option Tree)
    (b1 : BindingStrength) : Option Tree :=
  if b1 = .FAILED then type1
  else if ¬ isBuiltinInit init then env.initType init
  else if declType = none then some (env.newType init)
  else type1

/-- `RewriteCalls::Check`, lines 614-619: match the type of the form and the
declared entity. -/
def checkType3 (env : CheckEnv) (form defined : Tree) (type2 : Option Tree)
    (b2 : BindingStrength) : Option Tree :=
  if b2 ≠ .FAILED ∧ type2 ≠ none then
    let t := env.assignType form type2
    if defined ≠ form then env.assignType defined t else t
  else type2

/-- `RewriteCalls::Check`, lines 623-624: errors in the process fail the
binding. -/
def checkBinding3 (env : CheckEnv) (b2 : BindingStrength) : BindingStrength :=
  if env.hadErrors then .FAILED else b2

/-- `RewriteCalls::Check`, lines 627-632: define the type for the
expression; a null outcome degrades the binding. -/
def checkBinding4 (env : CheckEnv) (what : Tree) (type3 : Option Tree)
    (b3 : BindingStrength) : BindingStrength :=
  if b3 ≠ .FAILED then stepOpt b3 (env.assignType what type3)
  else b3

/-- The typecheck sequence of `RewriteCalls::Check` after a successful
`Bind` (compiler-args.cpp lines 571-632), composed from the steps above;
the binding strength starts from the `Bind` result `b0` and each step
either keeps it or degrades it to FAILED. -/
def checkDegrade (env : CheckEnv) (what form defined init : Tree)
    (declType type0 : Option Tree) (b0 : BindingStrength) : BindingStrength :=
  let b1 := checkBinding1 env what init type0 b0
  let t1 := checkType1 env what init type0
  let b2 := checkBinding2 env init b1
  let t2 := checkType2 env init declType t1 b1
  let t3 := checkType3 env form defined t2 b2
  let b3 := checkBinding3 env b2
  checkBinding4 env what t3 b3

/-- compiler-args.cpp, `RewriteCalls::Check`: check whether a candidate
rewrite `candLeft is candRight` matches expression `what`, and what binding
is required to match.  A FAILED `Bind` returns null at once without
recording; otherwise the candidate is recorded unless the typecheck
sequence degraded the binding to FAILED, and the expression itself is
returned - stopping the `Context::Lookup` walk - exactly on a PERFECT
binding.  (`Infix` children are never null in a parsed rewrite, so the C++
`if (init)` test is always taken here.) -/
def RewriteCalls.Check (env : CheckEnv) (o : TypesOracle) (what : Tree)
    (candLeft candRight : Tree) : CheckResult :=
  -- Attempt binding / unification of parameters to arguments
  let form := candLeft
  let defined := RewriteDefined form
  let declType := RewriteType form
  let type0 : Option Tree :=
    match declType with
    | some dt => env.evaluateType dt
    | none => none
  let binding0 := (RewriteCandidate.Bind o defined defined what initRCState).1
  if binding0 = .FAILED then ⟨.FAILED, false, none⟩
  else
    let b4 := checkDegrade env what form defined candRight declType type0 binding0
    -- Record the candidate on success; keep going unless binding was perfect
    ⟨b4,
     if b4 = .FAILED then false else true,
     if b4 = .PERFECT then some what else none⟩

-- ===========================================================================
-- The syntax table (src/src/syntax.cpp)
-- ===========================================================================

/-- The indentation-block sentinels `Block::indent` / `Block::unindent`.
tree.h is not among the sources; the spec (section 3) says indentation
blocks use distinguished sentinels, and only their identity matters here. -/
def blockIndent : String := "INDENT-SENTINEL"

def blockUnindent : String := "UNINDENT-SENTINEL"

/-- `map[k] = v` on an association list: overwrite the entry or append it
(std::map subscript-assignment semantics). -/
def setEntry {α : Type} (l : List (String × α)) (k : String) (v : α) :
    List (String × α) :=
  match l with
  | [] => [(k, v)]
  | (k2, v2) :: rest => if k2 = k then (k, v) :: rest else (k2, v2) :: setEntry rest k v

/-- The syntax table (syntax.h declarations with the syntax.cpp accessors):
priorities keyed by token text, the delimiter tables, the three special
priorities, and the known-token sets maintained by the syntax reader.
Every std::map or std::set is an association list or list without
duplicates. -/
structure SyntaxTable where
  infix_priority : List (String × Int)
  prefix_priority : List (String × Int)
  postfix_priority : List (String × Int)
  comment_delimiters : List (String × String)
  text_delimiters : List (String × String)
  block_delimiters : List (String × String)
  subsyntax_file : List (String × String)
  known_tokens : List String
  known_prefixes : List String
  default_priority : Int
  statement_priority : Int
  function_priority : Int
deriving DecidableEq, Repr

/-- syntax.cpp, `Syntax::InfixPriority`: the stored priority if present and
non-zero, the default priority otherwise. -/
def SyntaxTable.InfixPriority (syn : SyntaxTable) (n : String) : Int :=
  match syn.infix_priority.lookup n with
  | some p => if p ≠ 0 then p else syn.default_priority
  | none => syn.default_priority

/-- syntax.cpp, `Syntax::PrefixPriority`. -/
def SyntaxTable.PrefixPriority (syn : SyntaxTable) (n : String) : Int :=
  match syn.prefix_priority.lookup n with
  | some p => if p ≠ 0 then p else syn.default_priority
  | none => syn.default_priority

/-- syntax.cpp, `Syntax::PostfixPriority`. -/
def SyntaxTable.PostfixPriority (syn : SyntaxTable) (n : String) : Int :=
  match syn.postfix_priority.lookup n with
  | some p => if p ≠ 0 then p else syn.default_priority
  | none => syn.default_priority

/-- syntax.cpp, `Syntax::IsBlock`: look `begin` up in the block delimiter
table; `some closing` models returning true with the closing delimiter in
the out parameter. -/
def SyntaxTable.IsBlock (syn : SyntaxTable) (begin0 : String) : Option String :=
  syn.block_delimiters.lookup begin0

-- ===========================================================================
-- The operator-precedence parser (parser.cpp, in src/src/options.h)
-- ===========================================================================

/-- A `Pending` entry of the parser's work stack (opcode, argument,
priority); source positions are dropped.  The opcode of a pending prefix
application is the constant empty `prefix` text of `Parser::Parse`. -/
structure Pending where
  opcode : String
  argument : Tree
  priority : Int
deriving DecidableEq, Repr

/-- The parser tokens this embedding covers: names/symbols (with the
scanner's had-space-before/after flags), integer constants, newlines,
closing parentheses, unindent, and end of input.  Token kinds that open a
nested parse (indents, opening parentheses, child syntaxes) and the other
literals are outside the model; the token streams of the claims below never
produce them. -/
inductive PTok where
  | nameTok (isName : Bool) (value : String) (spaceBefore spaceAfter : Bool)
  | intTok (value : Int)
  | newlineTok
  | parcloseTok (value : String)
  | unindentTok
  | eofTok
deriving DecidableEq, Repr

/-- An `Error` record logged by the parser into the error sink
(errors.h is not among the sources; only the message shape matters). -/
inductive PError where
  | unexpectedEOF (expected : String)
  | mismatchedParen (got expected : String)
  | mismatchedIndent (expected : String)
deriving DecidableEq, Repr

/-- The parser's loop state: `result`, `result_priority`, the `left` operand
and `infix` name once an infix was recognized, the pending stack, the
`done` flag, the `new_statement` / `is_expression` flags, and the logged
errors. -/
structure PState where
  result : Option Tree
  resultPrio : Int
  left : Option Tree
  infixName : String
  stack : List Pending
  done : Bool
  newStatement : Bool
  isExpr : Bool
  errors : List PError
deriving DecidableEq, Repr

/-- Parser configuration: the syntax table, the `signedConstants` option of
the `Options` singleton, and the closing delimiter this `Parse(closing)`
call expects. -/
structure ParserCfg where
  syn : SyntaxTable
  signedConstants : Bool
  closing : String

/-- parser.cpp, `CreatePrefix`: special-case a unary `-` applied to an
integer or real constant when the `signedConstants` option is on. -/
def CreatePrefix (signedConstants : Bool) (l r : Tree) : Tree :=
  if signedConstants then
    match l, r with
    | .Name nm, .Integer iv => if nm = "-" then .Integer (-iv) else .Prefix (.Name nm) (.Integer iv)
    | .Name nm, .Real rv => if nm = "-" then .Real (-rv) else .Prefix (.Name nm) (.Real rv)
    | l, r => .Prefix l r
  else .Prefix l r

/-- Combine a pending entry with the tree to its right, as the parser's
stack-popping loops do: the empty opcode marks a prefix application
(`prev.opcode == prefix`), everything else an infix. -/
def combine (signedConstants : Bool) (p : Pending) (t : Tree) : Tree :=
  if p.opcode = "" then CreatePrefix signedConstants p.argument t
  else .Infix p.opcode p.argument t

/-- The parser's stack-flushing loop, shared by the three occurrences in
`Parser::Parse`: pop and combine while the top entry does not satisfy
`!done && prev.priority != default_priority && prio > (prev.priority & ~1)`.
For a two's-complement int, `p & ~1` is `p - p % 2` with Lean's `Int.emod`.
-/
def flushStack (signedConstants : Bool) (dflt : Int) (done : Bool) (prio : Int) :
    List Pending → Tree → List Pending × Tree
  | [], t => ([], t)
  | p :: rest, t =>
    if ¬done ∧ p.priority ≠ dflt ∧ prio > p.priority - p.priority % 2 then
      (p :: rest, t)
    else flushStack signedConstants dflt done prio rest (combine signedConstants p t)

/-- parser.cpp lines 490-545: the infix/postfix/prefix discrimination for a
name or symbol that arrives while a `result` is present and no infix is
pending. -/
inductive NameRole where
  | infixOp
  | postfixOp
  | prefixOp
deriving DecidableEq, Repr

/-- The discriminator itself: infix when the name has a (non-default) infix
priority and either no prefix priority, or no space before the token, or a
space after it; otherwise postfix when it has a postfix priority; otherwise
prefix. -/
def classifyName (syn : SyntaxTable) (n : String)
    (hadSpaceBefore hadSpaceAfter : Bool) : NameRole :=
  let infixPrio := syn.InfixPriority n
  let prefixVsInfix := syn.PrefixPriority n
  if infixPrio ≠ syn.default_priority ∧
     (prefixVsInfix = syn.default_priority ∨ ¬hadSpaceBefore ∨ hadSpaceAfter) then
    .infixOp
  else if syn.PostfixPriority n ≠ syn.default_priority then .postfixOp
  else .prefixOp

/-- The behaviour claim C2 describes, read from the spec's words: the infix
reading requires "no space before but space after" (a conjunction) instead
of the source's disjunction. -/
def classifyNameClaimed (syn : SyntaxTable) (n : String)
    (hadSpaceBefore hadSpaceAfter : Bool) : NameRole :=
  if syn.InfixPriority n ≠ syn.default_priority ∧
     (syn.PrefixPriority n = syn.default_priority ∨
      (¬hadSpaceBefore ∧ hadSpaceAfter)) then
    .infixOp
  else if syn.PostfixPriority n ≠ syn.default_priority then .postfixOp
  else .prefixOp

/-- The common tail of each `Parser::Parse` iteration (lines 626-740):
update `result`, the pending stack and the flags from the token's
classification (`right`, `prefix_priority`, `infix_priority`). -/
def parseTail (cfg : ParserCfg) (st : PState) (right : Option Tree)
    (prefixPrio infixPrio : Int) : PState :=
  let dflt := cfg.syn.default_priority
  let stmt := cfg.syn.statement_priority
  match st.result with
  | none =>
    -- First thing we parse
    let ns := if right.isSome ∧ prefixPrio ≥ stmt then false else st.newStatement
    { st with result := right, resultPrio := prefixPrio, newStatement := ns }
  | some r0 =>
    match st.left with
    | some l =>
      -- We got left and infix-op, we are now looking for right
      let st :=
        if infixPrio < stmt then { st with newStatement := true, isExpr := false }
        else st
      if prefixPrio ≠ dflt then
        { st with stack := ⟨st.infixName, l, infixPrio⟩ :: st.stack,
                  left := none, result := right, resultPrio := prefixPrio }
      else
        let fl := flushStack cfg.signedConstants dflt st.done infixPrio st.stack l
        if st.done then
          -- End of text: the result is what we just got
          { st with stack := fl.1, result := some fl.2, left := none }
        else
          -- Something like A+B+C, just got second +
          { st with stack := ⟨st.infixName, fl.2, infixPrio⟩ :: fl.1,
                    result := none, left := none }
    | none =>
      match right with
      | some rt =>
        -- Check if we had a low-priority prefix (e.g. pragmas)
        let st :=
          if prefixPrio < stmt then { st with newStatement := true, isExpr := false }
          else st
        -- Check priorities for something like "A.B x,y"
        let fl :=
          if prefixPrio ≤ st.resultPrio then
            flushStack cfg.signedConstants dflt st.done st.resultPrio st.stack r0
          else (st.stack, r0)
        -- Check if new statement
        let emptyOrLow : Bool :=
          match fl.1 with
          | [] => true
          | p :: _ => decide (p.priority < stmt)
        let rp :=
          if ¬st.isExpr ∧ st.resultPrio > stmt ∧ emptyOrLow then stmt
          else st.resultPrio
        -- Push a recognized prefix op
        { st with stack := ⟨"", fl.2, rp⟩ :: fl.1,
                  result := some rt, resultPrio := prefixPrio }
      | none => st

/-- One iteration of the `Parser::Parse` token loop (lines 416-740): token
classification followed by `parseTail`.  The special-syntax dispatch is not
modelled (the syntax tables used below declare no child syntax).  Comments
attachment is dropped with the info chains. -/
def parseStep (cfg : ParserCfg) (st : PState) (tok : PTok) : PState :=
  let dflt := cfg.syn.default_priority
  match tok with
  | .eofTok =>
    let st := { st with done := true }
    let st :=
      if cfg.closing ≠ "" ∧ cfg.closing ≠ blockUnindent then
        { st with errors := st.errors ++ [.unexpectedEOF cfg.closing] }
      else st
    parseTail cfg st none dflt dflt
  | .intTok v =>
    parseTail cfg st (some (.Integer v)) cfg.syn.function_priority dflt
  | .newlineTok =>
    -- Consider new-line as an infix operator
    parseTail cfg { st with left := st.result, infixName := "\n" } none dflt
      (cfg.syn.InfixPriority "\n")
  | .parcloseTok v =>
    -- Check for mismatched parentheses here
    let st :=
      if v ≠ cfg.closing then
        { st with errors := st.errors ++ [.mismatchedParen v cfg.closing] }
      else st
    parseTail cfg { st with done := true } none dflt dflt
  | .unindentTok =>
    -- Check for mismatched blocks here
    let st :=
      if cfg.closing ≠ blockUnindent then
        { st with errors := st.errors ++ [.mismatchedIndent cfg.closing] }
      else st
    parseTail cfg { st with done := true } none dflt dflt
  | .nameTok isName n before after =>
    if n = cfg.closing then
      parseTail cfg { st with done := true } none dflt dflt
    else
      match st.result with
      | none =>
        let pp0 := cfg.syn.PrefixPriority n
        let st :=
          if st.newStatement ∧ isName then { st with isExpr := false }
          else st
        parseTail cfg st (some (.Name n))
          (if pp0 = dflt then cfg.syn.function_priority else pp0) dflt
      | some r =>
        match st.left with
        | some _ =>
          -- This is the right of an infix operator
          let pp0 := cfg.syn.PrefixPriority n
          parseTail cfg st (some (.Name n))
            (if pp0 = dflt then cfg.syn.function_priority else pp0) dflt
        | none =>
          -- Complicated case: need to discriminate infix and prefix
          match classifyName cfg.syn n before after with
          | .infixOp =>
            -- We got an infix
            parseTail cfg { st with left := some r, infixName := n } none dflt
              (cfg.syn.InfixPriority n)
          | .postfixOp =>
            -- We have a postfix operator; flush higher priority items
            let postp := cfg.syn.PostfixPriority n
            let fl := flushStack cfg.signedConstants dflt st.done postp st.stack r
            parseTail cfg { st with stack := fl.1, result := none }
              (some (.Postfix fl.2 (.Name n))) postp dflt
          | .prefixOp =>
            -- No priority: take this as a prefix by default
            let pp0 := cfg.syn.PrefixPriority n
            let st :=
              if pp0 = dflt ∧ st.newStatement ∧ isName then { st with isExpr := false }
              else st
            parseTail cfg st (some (.Name n))
              (if pp0 = dflt then cfg.syn.function_priority else pp0) dflt

/-- The `while (!done)` token loop of `Parser::Parse`. -/
def parseLoop (cfg : ParserCfg) : List PTok → PState → PState
  | [], st => st
  | t :: rest, st =>
    if st.done then st else parseLoop cfg rest (parseStep cfg st t)

/-- The end-of-loop drain of `Parser::Parse` (lines 743-767): absorb a
dangling operator as a postfix, then combine what remains on the stack. -/
def parseDrain (cfg : ParserCfg) (st : PState) : Option Tree :=
  match st.stack with
  | [] => st.result
  | last :: rest =>
    match st.result with
    | some r =>
      some ((last :: rest).foldl (fun t p => combine cfg.signedConstants p t) r)
    | none =>
      let r0 :=
        if last.opcode ≠ "\n" then Tree.Postfix last.argument (.Name last.opcode)
        else last.argument
      some (rest.foldl (fun t p => combine cfg.signedConstants p t) r0)

/-- The initial state of `Parser::Parse(closing)` (lines 367-398): inside a
bracket whose priority is above the statement priority, parsing starts in
expression mode. -/
def initPState (cfg : ParserCfg) : PState :=
  let parenPrio := cfg.syn.InfixPriority cfg.closing
  let exprMode := cfg.closing ≠ "" ∧ parenPrio > cfg.syn.statement_priority
  { result := none, resultPrio := cfg.syn.default_priority, left := none,
    infixName := "", stack := [], done := false,
    newStatement := ¬exprMode, isExpr := exprMode, errors := [] }

/-- `Parser::Parse(closing)` over a token stream: run the loop, then drain
the stack; the function always returns (errors are logged, not thrown). -/
def Parser.Parse (cfg : ParserCfg) (toks : List PTok) : PState :=
  parseLoop cfg toks (initPState cfg)

/-- The tree `Parser::Parse` returns. -/
def Parser.ParseTree (cfg : ParserCfg) (toks : List PTok) : Option Tree :=
  parseDrain cfg (Parser.Parse cfg toks)

-- ===========================================================================
-- The syntax-file reader (syntax.cpp, `Syntax::ReadSyntaxFile`)
-- ===========================================================================

/-- The reader's section state machine, in the enumeration order of
syntax.cpp (`state >= inComment` compares these indices). -/
inductive ReadState where
  | inUnknown
  | inPrefixSec
  | inInfixSec
  | inPostfixSec
  | inCommentSec
  | inCommentDef
  | inTextSec
  | inTextDef
  | inBlockSec
  | inBlockDef
  | inSyntaxName
  | inSyntaxSec
  | inSyntaxDef
deriving DecidableEq, Repr

def ReadState.idx : ReadState → Nat
  | .inUnknown => 0
  | .inPrefixSec => 1
  | .inInfixSec => 2
  | .inPostfixSec => 3
  | .inCommentSec => 4
  | .inCommentDef => 5
  | .inTextSec => 6
  | .inTextDef => 7
  | .inBlockSec => 8
  | .inBlockDef => 9
  | .inSyntaxName => 10
  | .inSyntaxSec => 11
  | .inSyntaxDef => 12

/-- The scanner tokens `Syntax::ReadSyntaxFile` reacts to.  Integer tokens
carry their raw text as well (the known-token bookkeeping uses
`scanner.TextValue()`). -/
inductive STok where
  | sName (t : String)
  | sSymbol (t : String)
  | sString (t : String)
  | sQuote (t : String)
  | sInt (n : Int) (raw : String)
  | sIndent
  | sParopen
  | sUnindent
  | sParclose
  | sEof
deriving DecidableEq, Repr

/-- The text value a token carries, when it has one. -/
def STok.textValue : STok → Option String
  | .sName t => some t
  | .sSymbol t => some t
  | .sString t => some t
  | .sQuote t => some t
  | .sInt _ raw => some raw
  | _ => none

def STok.isSymbol : STok → Bool
  | .sSymbol _ => true
  | _ => false

/-- The full state of one `ReadSyntaxFile` invocation: the syntax tables
being filled, the state machine, the pending `entry`, the current priority,
the indentation depth, the `done` flag, and the file name of the child
syntax being read (`childSyntax`; loading the child file itself is I/O and
outside the model). -/
structure ReaderState where
  syn : SyntaxTable
  state : ReadState
  entry : String
  priority : Int
  indents : Int
  done : Bool
  childFile : String
deriving DecidableEq, Repr

/-- Insert a string in a modelled std::set. -/
def insertStr (l : List String) (t : String) : List String :=
  if t ∈ l then l else l ++ [t]

/-- The known-token bookkeeping at the top of the reader loop: every proper
prefix of the text becomes a known prefix and the text a known token. -/
def addKnown (syn : SyntaxTable) (t : String) : SyntaxTable :=
  let pres := ((List.range t.length).drop 1).map (fun i => t.take i)
  { syn with
    known_prefixes := pres.foldl insertStr syn.known_prefixes,
    known_tokens := insertStr syn.known_tokens t }

/-- One iteration of the `Syntax::ReadSyntaxFile` loop for one scanned
token: the known-token bookkeeping (for symbols, or in any state at or
beyond the COMMENT section), then the token switch with the keyword and
state-machine handling.  Path resolution of a child syntax file
(`Options::LibPath`) is modelled as the identity. -/
def syntaxStep (st : ReaderState) (tok : STok) : ReaderState :=
  let st :=
    match tok.textValue with
    | some t =>
      if tok.isSymbol ∨ st.state.idx ≥ 4 then { st with syn := addKnown st.syn t }
      else st
    | none => st
  match tok with
  | .sEof => st
  | .sInt n _ => { st with priority := n }
  | .sIndent => { st with indents := st.indents + 1 }
  | .sParopen => { st with indents := st.indents + 1 }
  | .sUnindent =>
    { st with indents := st.indents - 1, done := st.indents - 1 = 0 ∨ st.done }
  | .sParclose =>
    { st with indents := st.indents - 1, done := st.indents - 1 = 0 ∨ st.done }
  | .sName t0 | .sSymbol t0 | .sString t0 | .sQuote t0 =>
    let txt :=
      if t0 = "NEWLINE" then "\n"
      else if t0 = "INDENT" then blockIndent
      else if t0 = "UNINDENT" then blockUnindent
      else t0
    if txt = "INFIX" then { st with state := .inInfixSec }
    else if txt = "PREFIX" then { st with state := .inPrefixSec }
    else if txt = "POSTFIX" then { st with state := .inPostfixSec }
    else if txt = "BLOCK" then { st with state := .inBlockSec }
    else if txt = "COMMENT" then { st with state := .inCommentSec }
    else if txt = "TEXT" then { st with state := .inTextSec }
    else if txt = "SYNTAX" then { st with state := .inSyntaxName }
    else if txt = "STATEMENT" then
      { st with syn := { st.syn with statement_priority := st.priority } }
    else if txt = "FUNCTION" then
      { st with syn := { st.syn with function_priority := st.priority } }
    else if txt = "DEFAULT" then
      { st with syn := { st.syn with default_priority := st.priority } }
    else
      match st.state with
      | .inUnknown => st
      | .inPrefixSec =>
        { st with syn :=
            { st.syn with prefix_priority := setEntry st.syn.prefix_priority txt st.priority } }
      | .inPostfixSec =>
        { st with syn :=
            { st.syn with postfix_priority := setEntry st.syn.postfix_priority txt st.priority } }
      | .inInfixSec =>
        { st with syn :=
            { st.syn with infix_priority := setEntry st.syn.infix_priority txt st.priority } }
      | .inCommentSec => { st with entry := txt, state := .inCommentDef }
      | .inCommentDef =>
        { st with state := .inCommentSec,
                  syn := { st.syn with
                           comment_delimiters := setEntry st.syn.comment_delimiters st.entry txt } }
      | .inTextSec => { st with entry := txt, state := .inTextDef }
      | .inTextDef =>
        { st with state := .inTextSec,
                  syn := { st.syn with
                           text_delimiters := setEntry st.syn.text_delimiters st.entry txt } }
      | .inBlockSec =>
        { st with entry := txt, state := .inBlockDef,
                  syn := { st.syn with
                           infix_priority := setEntry st.syn.infix_priority txt st.priority } }
      | .inBlockDef =>
        { st with state := .inBlockSec,
                  syn := { st.syn with
                           block_delimiters :=
                             setEntry (setEntry st.syn.block_delimiters st.entry txt) txt "",
                           infix_priority := setEntry st.syn.infix_priority txt st.priority } }
      | .inSyntaxName => { st with childFile := txt, state := .inSyntaxSec }
      | .inSyntaxSec => { st with entry := txt, state := .inSyntaxDef }
      | .inSyntaxDef =>
        { st with state := .inSyntaxSec,
                  syn := { st.syn with
                           subsyntax_file := setEntry st.syn.subsyntax_file st.entry st.childFile } }

/-- The `while (tok != tokEOF && !done)` loop of `Syntax::ReadSyntaxFile`:
each fetched token is processed (the EOF token too), then the loop condition
is re-examined. -/
def readSyntax : ReaderState → List STok → ReaderState
  | st, [] => st
  | st, t :: rest =>
    if st.done then st
    else
      let st2 := syntaxStep st t
      match t with
      | .sEof => st2
      | _ => readSyntax st2 rest

/-- The uppercase labels, special-priority names and virtual-delimiter names
that `ReadSyntaxFile` treats specially. -/
def syntaxKeywords : List String :=
  ["NEWLINE", "INDENT", "UNINDENT", "INFIX", "PREFIX", "POSTFIX", "BLOCK",
   "COMMENT", "TEXT", "SYNTAX", "STATEMENT", "FUNCTION", "DEFAULT"]

-- ===========================================================================
-- The interpreter's closures (interpreter.h, src/unnamed/part_003)
-- ===========================================================================

/-- The interpreter's trees: as `Tree`, but a `Prefix` carries the flag
standing for the identity-keyed `ClosureInfo` annotation (`GetInfo` /
`SetInfo`), which is the only info the modelled code consults. -/
inductive CTree where
  | Integer (value : Int)
  | Real (value : Rat)
  | Text (value opening closing : String)
  | Name (value : String)
  | Block (child : CTree) (opening closing : String)
  | Prefix (closureMark : Bool) (left right : CTree)
  | Postfix (left right : CTree)
  | Infix (name : String) (left right : CTree)
deriving DecidableEq, Repr

/-- Kind enumeration index, as `Tree.kindIndex`. -/
def CTree.kindIndex : CTree → Nat
  | .Integer _ => 0
  | .Real _ => 1
  | .Text _ _ _ => 2
  | .Name _ => 3
  | .Block _ _ _ => 4
  | .Prefix _ _ _ => 5
  | .Postfix _ _ => 6
  | .Infix _ _ _ => 7

/-- `GetInfo<ClosureInfo>`: does the node carry the closure marker? -/
def CTree.closureMarked : CTree → Bool
  | .Prefix m _ _ => m
  | _ => false

/-- interpreter.h, `Interpreter::IsClosure`: a closure is a marked prefix
whose left child is itself a prefix (the captured scope); on success the
out-parameter context is switched to that scope and the closure's right
child (the inner value) is returned. -/
def Interpreter.IsClosure (tree : CTree) : Option (CTree × CTree) :=
  match tree with
  | .Prefix m l r =>
    match l with
    | .Prefix lm ll lr => if m then some (.Prefix lm ll lr, r) else none
    | _ => none
  | _ => none

/-- context.h, `Context::HasRewritesFor`: test bit `k` of the static
`hasRewritesForKind` bitmask. -/
def Context.HasRewritesFor (mask : Nat) (k : Nat) : Bool :=
  mask &&& (1 <<< k) ≠ 0

/-- `valueKind != PREFIX || !value->GetInfo<ClosureInfo>()`: the wrap at the
end of `Interpreter::MakeClosure`. -/
def makeClosureWrap (scope value : CTree) : CTree :=
  if value.kindIndex ≠ 5 ∨ ¬ value.closureMarked then
    CTree.Prefix true scope value
  else value

/-- interpreter.h, `Interpreter::MakeClosure`: create a closure
encapsulating the current context.  `mask` is the static
`Context::hasRewritesForKind`; `bound` models `Context::Bound` in a given
scope (context.cpp is not among the sources).  The `goto retry` loop is
modelled with fuel: `none` stands for a non-terminating C++ execution and
never arises in the runs reasoned about below. -/
def Interpreter.MakeClosure (mask : Nat) (bound : CTree → CTree → Option CTree) :
    Nat → CTree → CTree → Option CTree
  | 0, _, _ => none
  | fuel + 1, scope, value =>
    let k := value.kindIndex
    if 3 ≤ k ∨ Context.HasRewritesFor mask k then
      if k = 3 then
        -- valueKind == NAME
        match bound scope value with
        | some b =>
          match Interpreter.IsClosure b with
          | some (s2, inside) =>
            -- the context is switched to the captured scope in all cases
            if inside ≠ value then Interpreter.MakeClosure mask bound fuel s2 inside
            else if b ≠ value then Interpreter.MakeClosure mask bound fuel s2 b
            else some (makeClosureWrap s2 value)
          | none =>
            if b ≠ value then Interpreter.MakeClosure mask bound fuel scope b
            else some (makeClosureWrap scope value)
        | none => some (makeClosureWrap scope value)
      else some (makeClosureWrap scope value)
    else some value

/-- The behaviour claim C4 describes, read from the spec's words: making a
closure of an already-closed value returns the inner value re-wrapped in a
new closure over the current scope exactly when the captured scope differs
from the current one. -/
def makeClosureClaimed (scope value : CTree) : Option CTree :=
  match Interpreter.IsClosure value with
  | some (captured, inside) =>
    some (if captured ≠ scope then CTree.Prefix true scope inside else value)
  | none => none

/-- A concrete, spec-faithful instantiation of the type oracle, used by the
concrete theorems below: constants have their literal type and other
expressions the universal tree type (spec section 4.5); a type unifies with
an equal type or with the universal tree type; no name is bound. -/
def specOracle : TypesOracle where
  valueType := fun v =>
    some (match v with
          | .Integer _ => integer_type
          | .Real _ => real_type
          | .Text _ _ _ => text_type
          | _ => tree_type)
  btype := fun v =>
    some (match v with
          | .Integer _ => integer_type
          | .Real _ => real_type
          | .Text _ _ _ => text_type
          | _ => tree_type)
  assignType := fun _ t => t
  declaredTypeName := fun t => t
  btUnify := fun t1 t2 => t1 == t2 || t1 == some tree_type || t2 == some tree_type
  bound := fun _ _ => none

/-- The behaviour claim C3 describes, read from the spec's words: a literal
pattern binds PERFECT against an equal literal of the same kind; otherwise,
when the value's type unifies with the literal's type, it binds POSSIBLE
with a runtime equality condition; otherwise FAILED. -/
def bindLiteralClaimed (o : TypesOracle) (form value : Tree) : BindingStrength :=
  let sameKindEqual :=
    match form, value with
    | .Integer fv, .Integer iv => iv == fv
    | .Real fv, .Real iv => iv == fv
    | .Text fv _ _, .Text iv _ _ => iv == fv
    | _, _ => false
  let literalType :=
    match form with
    | .Integer _ => integer_type
    | .Real _ => real_type
    | _ => text_type
  if sameKindEqual then .PERFECT
  else if (RewriteCandidate.Unify o (o.valueType value) (some literalType)
             value initRCState).1 then .POSSIBLE
  else .FAILED

-- ===========================================================================
-- Concrete instances used by the claim theorems
-- ===========================================================================

/-- A syntax table declaring a single infix "+" with priority `p`
(statement priority 100, function priority 200, default 0). -/
def plusSyn (p : Int) : SyntaxTable :=
  { infix_priority := [("+", p)], prefix_priority := [], postfix_priority := [],
    comment_delimiters := [], text_delimiters := [], block_delimiters := [],
    subsyntax_file := [], known_tokens := [], known_prefixes := [],
    default_priority := 0, statement_priority := 100, function_priority := 200 }

def plusCfg (p : Int) : ParserCfg := ⟨plusSyn p, false, ""⟩

/-- The token stream of `a + b + c`, all tokens surrounded by spaces. -/
def abcToks : List PTok :=
  [.nameTok true "a" true true, .nameTok false "+" true true,
   .nameTok true "b" true true, .nameTok false "+" true true,
   .nameTok true "c" true true, .eofTok]

/-- A syntax table where "-" is both an infix (priority 500) and a prefix
(priority 300). -/
def minusSyn : SyntaxTable :=
  { infix_priority := [("-", 500)], prefix_priority := [("-", 300)],
    postfix_priority := [], comment_delimiters := [], text_delimiters := [],
    block_delimiters := [], subsyntax_file := [], known_tokens := [],
    known_prefixes := [], default_priority := 0, statement_priority := 100,
    function_priority := 200 }

/-- An empty syntax-reader state at a given section priority, ready for a
section body. -/
def emptyReaderState (rs : ReadState) (prio : Int) : ReaderState :=
  { syn := plusSyn 1, state := rs, entry := "", priority := prio,
    indents := 1, done := false, childFile := "" }

/-- Two structurally different scopes and a closure over the first one,
for the closure claims. -/
def scopeOne : CTree := .Prefix false (.Name "scope-one") (.Name "")

def scopeTwo : CTree := .Prefix false (.Name "scope-two") (.Name "")

def closureOne : CTree := .Prefix true scopeOne (.Name "x")

-- ===========================================================================
-- Theorems
-- ===========================================================================

theorem setEntry_lookup_self {α : Type} (l : List (String × α)) (k : String) (v : α) :
    (setEntry l k v).lookup k = some v := by
  induction l with
  | nil => simp [setEntry, List.lookup]
  | cons p rest ih =>
    obtain ⟨a, b⟩ := p
    by_cases h : a = k
    · simp [setEntry, h, List.lookup]
    · have hk : (k == a) = false := beq_eq_false_iff_ne.mpr (Ne.symm h)
      simp [setEntry, h, List.lookup, hk, ih]

theorem setEntry_lookup_other {α : Type} (l : List (String × α)) (k k2 : String)
    (v : α) (h : k2 ≠ k) : (setEntry l k v).lookup k2 = l.lookup k2 := by
  have hk : (k2 == k) = false := beq_eq_false_iff_ne.mpr h
  induction l with
  | nil => simp [setEntry, List.lookup, hk]
  | cons p rest ih =>
    obtain ⟨a, b⟩ := p
    by_cases ha : a = k
    · subst ha
      simp [setEntry, List.lookup, hk]
    · by_cases h2 : k2 = a
      · subst h2
        simp [setEntry, ha, List.lookup]
      · have hk2 : (k2 == a) = false := beq_eq_false_iff_ne.mpr h2
        simp [setEntry, ha, List.lookup, hk2, ih]

/-- Claim C6, counterexample: a guard nested inside an outer block is not
stripped by `RewriteDefined`, although the claim's "any combination of a
guard, a type annotation and an enclosing block" says it should be. -/
theorem C6_counterexample :
    RewriteDefined (.Block (.Infix "when" (.Name "f") (.Name "g")) "(" ")") =
      .Infix "when" (.Name "f") (.Name "g") ∧
    RewriteDefinedClaimed (.Block (.Infix "when" (.Name "f") (.Name "g")) "(" ")") =
      .Name "f" ∧
    Tree.Infix "when" (.Name "f") (.Name "g") ≠ Tree.Name "f" := by
  refine ⟨rfl, rfl, by decide⟩

/-- Claim C6 (amended): `RewriteDefined` strips one `as`/`:` annotation,
then one `when` guard, then one outer block, in that nesting order (the
annotation outermost); every sub-combination in that order is fully
stripped, and a form that is none of these is returned unchanged. -/
theorem C6_strip_in_order (F G T : Tree) (o c : String)
    (h : isAnnotated F = false) :
    RewriteDefined (.Infix "as" (.Infix "when" (.Block F o c) G) T) = F ∧
    RewriteDefined (.Infix ":" (.Infix "when" (.Block F o c) G) T) = F ∧
    RewriteDefined (.Infix "as" (.Infix "when" F G) T) = F ∧
    RewriteDefined (.Infix "as" (.Block F o c) T) = F ∧
    RewriteDefined (.Infix "when" (.Block F o c) G) = F ∧
    RewriteDefined (.Infix "as" F T) = F ∧
    RewriteDefined (.Infix "when" F G) = F ∧
    RewriteDefined (.Block F o c) = F ∧
    RewriteDefined F = F := by
  cases F <;> simp_all [RewriteDefined, isAnnotated]

/-- Witness for C6: the amended statement at a concrete pattern. -/
theorem C6_strip_in_order_witness :
    isAnnotated (Tree.Name "f") = false ∧
    RewriteDefined (.Infix "as" (.Infix "when" (.Block (.Name "f") "(" ")")
      (.Name "g")) (.Name "t")) = .Name "f" :=
  ⟨by decide, (C6_strip_in_order (.Name "f") (.Name "g") (.Name "t") "(" ")"
      (by decide)).1⟩

theorem lor_low_add_high (a b : ℕ) (ha : a < 2 ^ 31) :
    a ||| 2 ^ 31 * b = 2 ^ 31 * b + a := by
  apply Nat.eq_of_testBit_eq
  intro j
  rw [Nat.testBit_lor, Nat.testBit_mul_pow_two_add b ha j, Nat.testBit_mul_pow_two]
  by_cases hj : j < 31
  · have : ¬ j ≥ 31 := by omega
    simp [hj, this]
  · have hge : j ≥ 31 := by omega
    have ha2 : a < 2 ^ j := lt_of_lt_of_le ha (Nat.pow_le_pow_right (by norm_num) hge)
    simp [hj, hge, Nat.testBit_lt_two_pow ha2]

theorem rehash32_rotation (h : ℕ) (hh : h < 2 ^ 32) :
    Context.Rehash 32 h = 2 ^ 31 * (h % 2) + h / 2 := by
  have h1 : h >>> 1 = h / 2 := Nat.shiftRight_eq_div_pow h 1 ▸ by norm_num
  have h2 : h <<< 31 = h * 2 ^ 31 := Nat.shiftLeft_eq h 31
  have h3 : h * 2 ^ 31 % 2 ^ 32 = 2 ^ 31 * (h % 2) := by
    conv_lhs => rw [← Nat.div_add_mod h 2]
    have : (2 * (h / 2) + h % 2) * 2 ^ 31 = 2 ^ 31 * (h % 2) + h / 2 * 2 ^ 32 := by ring
    rw [this, Nat.add_mul_mod_self_right]
    exact Nat.mod_eq_of_lt (by have := Nat.mod_lt h (y := 2) (by norm_num); omega)
  have hdiv : h / 2 < 2 ^ 31 := by omega
  rw [Context.Rehash, h1, h2, h3, lor_low_add_high _ _ hdiv]

/-- Claim C7, counterexample: with the 64-bit `ulong` of an LP64 platform,
`Context::Rehash` is not injective (hence not a rotation): `2^32` and
`2^32 + 1` collide. -/
theorem C7_counterexample :
    Context.Rehash 64 (2 ^ 32) = Context.Rehash 64 (2 ^ 32 + 1) ∧
    (2 ^ 32 : ℕ) ≠ 2 ^ 32 + 1 ∧
    (2 ^ 32 : ℕ) < 2 ^ 64 ∧ (2 ^ 32 + 1 : ℕ) < 2 ^ 64 := by
  refine ⟨by decide, by decide, by decide, by decide⟩

/-- Claim C7 (amended): on a platform where `ulong` is 32 bits wide,
`Context::Rehash` is the right rotation of the hash by one bit, and hence a
bijection on the 32-bit hash domain; on a 64-bit `ulong` it is neither (see
the counterexample). -/
theorem C7_rehash_rotation_32 :
    (∀ h : ℕ, h < 2 ^ 32 → Context.Rehash 32 h = 2 ^ 31 * (h % 2) + h / 2) ∧
    (∀ h1 : ℕ, h1 < 2 ^ 32 → ∀ h2 : ℕ, h2 < 2 ^ 32 →
       Context.Rehash 32 h1 = Context.Rehash 32 h2 → h1 = h2) ∧
    (∀ y : ℕ, y < 2 ^ 32 → ∃ h : ℕ, h < 2 ^ 32 ∧ Context.Rehash 32 h = y) := by
  refine ⟨rehash32_rotation, ?_, ?_⟩
  · intro h1 hh1 h2 hh2 heq
    rw [rehash32_rotation h1 hh1, rehash32_rotation h2 hh2] at heq
    omega
  · intro y hy
    refine ⟨y % 2 ^ 31 * 2 + y / 2 ^ 31, by omega, ?_⟩
    rw [rehash32_rotation _ (by omega)]
    omega

/-- Witness for C7: the rotation at a concrete hash value. -/
theorem C7_rehash_rotation_32_witness : Context.Rehash 32 6 = 3 := by
  have := C7_rehash_rotation_32.1 6 (by norm_num)
  simpa using this

theorem stepOpt_or (b : BindingStrength) (t : Option Tree) :
    stepOpt b t = .FAILED ∨ stepOpt b t = b := by
  unfold stepOpt; split <;> simp

theorem checkBinding1_or (env : CheckEnv) (what init : Tree)
    (type0 : Option Tree) (b0 : BindingStrength) :
    checkBinding1 env what init type0 b0 = .FAILED ∨
    checkBinding1 env what init type0 b0 = b0 := by
  unfold checkBinding1
  split
  · simp
  · exact stepOpt_or b0 _

theorem checkBinding2_or (env : CheckEnv) (init : Tree) (b1 : BindingStrength) :
    checkBinding2 env init b1 = .FAILED ∨ checkBinding2 env init b1 = b1 := by
  unfold checkBinding2
  split
  · exact stepOpt_or b1 _
  · simp

theorem checkBinding3_or (env : CheckEnv) (b2 : BindingStrength) :
    checkBinding3 env b2 = .FAILED ∨ checkBinding3 env b2 = b2 := by
  unfold checkBinding3; split <;> simp

theorem checkBinding4_or (env : CheckEnv) (what : Tree) (type3 : Option Tree)
    (b3 : BindingStrength) :
    checkBinding4 env what type3 b3 = .FAILED ∨
    checkBinding4 env what type3 b3 = b3 := by
  unfold checkBinding4
  split
  · exact stepOpt_or b3 _
  · simp

/-- The typecheck sequence after `Bind` never upgrades the binding: it
either keeps the `Bind` strength or fails. -/
theorem checkDegrade_or (env : CheckEnv) (what form defined init : Tree)
    (declType type0 : Option Tree) (b0 : BindingStrength) :
    checkDegrade env what form defined init declType type0 b0 = .FAILED ∨
    checkDegrade env what form defined init declType type0 b0 = b0 := by
  unfold checkDegrade
  rcases checkBinding4_or env what
      (checkType3 env form defined
        (checkType2 env init declType (checkType1 env what init type0)
          (checkBinding1 env what init type0 b0))
        (checkBinding2 env init (checkBinding1 env what init type0 b0)))
      (checkBinding3 env (checkBinding2 env init (checkBinding1 env what init type0 b0)))
    with h4 | h4
  · exact Or.inl h4
  · rw [h4]
    rcases checkBinding3_or env
        (checkBinding2 env init (checkBinding1 env what init type0 b0)) with h3 | h3
    · exact Or.inl h3
    · rw [h3]
      rcases checkBinding2_or env init (checkBinding1 env what init type0 b0) with h2 | h2
      · exact Or.inl h2
      · rw [h2]
        exact checkBinding1_or env what init type0 b0

/-- `RewriteCalls::Check` always produces a result of this shape: the final
binding strength `b` (the `Bind` strength or FAILED), the candidate
recorded exactly when `b` is not FAILED, and the expression returned
exactly when `b` is PERFECT. -/
theorem check_shape (env : CheckEnv) (o : TypesOracle)
    (what candLeft candRight : Tree) :
    ∃ b : BindingStrength,
      RewriteCalls.Check env o what candLeft candRight =
        ⟨b, if b = .FAILED then false else true,
            if b = .PERFECT then some what else none⟩ ∧
      (b = .FAILED ∨ b = (RewriteCandidate.Bind o (RewriteDefined candLeft)
            (RewriteDefined candLeft) what initRCState).1) := by
  by_cases h0 : (RewriteCandidate.Bind o (RewriteDefined candLeft)
      (RewriteDefined candLeft) what initRCState).1 = .FAILED
  · exact ⟨.FAILED, by simp [RewriteCalls.Check, h0], Or.inl rfl⟩
  · simp only [RewriteCalls.Check, h0, if_false]
    exact ⟨_, rfl, checkDegrade_or env what candLeft (RewriteDefined candLeft)
      candRight (RewriteType candLeft) _ _⟩

/-- Claim C1: during candidate enumeration, `RewriteCalls::Check` returns
the expression (non-null, which short-circuits the `Context::Lookup` walk)
exactly when the candidate's final binding is PERFECT; otherwise it returns
null so enumeration continues, recording the candidate exactly when the
binding is not FAILED.  A non-FAILED final binding is always the strength
`Bind` computed (the typechecks only ever degrade it to FAILED). -/
theorem C1_perfect_short_circuits (env : CheckEnv) (o : TypesOracle)
    (what candLeft candRight : Tree) :
    ((RewriteCalls.Check env o what candLeft candRight).result = some what ↔
       (RewriteCalls.Check env o what candLeft candRight).binding = .PERFECT) ∧
    ((RewriteCalls.Check env o what candLeft candRight).result = none ↔
       (RewriteCalls.Check env o what candLeft candRight).binding ≠ .PERFECT) ∧
    ((RewriteCalls.Check env o what candLeft candRight).recorded = true ↔
       (RewriteCalls.Check env o what candLeft candRight).binding ≠ .FAILED) ∧
    ((RewriteCalls.Check env o what candLeft candRight).binding ≠ .FAILED →
       (RewriteCalls.Check env o what candLeft candRight).binding =
         (RewriteCandidate.Bind o (RewriteDefined candLeft)
            (RewriteDefined candLeft) what initRCState).1) := by
  obtain ⟨b, hck, hb⟩ := check_shape env o what candLeft candRight
  rw [hck]
  refine ⟨?_, ?_, ?_, ?_⟩
  · cases b <;> simp
  · cases b <;> simp
  · cases b <;> simp
  · intro hne
    rcases hb with h | h
    · exact absurd h hne
    · exact h

/-- Claim C3 (amended): binding a literal pattern (INTEGER, REAL or TEXT
leaf) against a value of the same literal kind returns PERFECT for an equal
value and FAILED for an unequal one, without attempting unification; only
against a value of a different kind does it return POSSIBLE with a runtime
equality condition when the value's type unifies with the literal's type,
and FAILED otherwise. -/
theorem C3_literal_binding (o : TypesOracle) (defined : Tree) (s : RCState) :
    (∀ fv iv : Int,
       RewriteCandidate.Bind o defined (.Integer fv) (.Integer iv) s =
         (if iv = fv then .PERFECT else .FAILED, s)) ∧
    (∀ (fv : Int) (value : Tree), value.kindIndex ≠ 0 →
       RewriteCandidate.Bind o defined (.Integer fv) value s =
         (if (RewriteCandidate.Unify o (o.valueType value) (some integer_type)
                value s).1
          then (.POSSIBLE,
                rcCondition (RewriteCandidate.Unify o (o.valueType value)
                  (some integer_type) value s).2 value (.Integer fv))
          else (.FAILED, (RewriteCandidate.Unify o (o.valueType value)
                  (some integer_type) value s).2))) ∧
    (∀ fv iv : Rat,
       RewriteCandidate.Bind o defined (.Real fv) (.Real iv) s =
         (if iv = fv then .PERFECT else .FAILED, s)) ∧
    (∀ (fv : Rat) (value : Tree), value.kindIndex ≠ 1 →
       RewriteCandidate.Bind o defined (.Real fv) value s =
         (if (RewriteCandidate.Unify o (o.valueType value) (some real_type)
                value s).1
          then (.POSSIBLE,
                rcCondition (RewriteCandidate.Unify o (o.valueType value)
                  (some real_type) value s).2 value (.Real fv))
          else (.FAILED, (RewriteCandidate.Unify o (o.valueType value)
                  (some real_type) value s).2))) ∧
    (∀ (fv fo fc iv io ic : String),
       RewriteCandidate.Bind o defined (.Text fv fo fc) (.Text iv io ic) s =
         (if iv = fv then .PERFECT else .FAILED, s)) ∧
    (∀ (fv fo fc : String) (value : Tree), value.kindIndex ≠ 2 →
       RewriteCandidate.Bind o defined (.Text fv fo fc) value s =
         (if (RewriteCandidate.Unify o (o.valueType value) (some text_type)
                value s).1
          then (.POSSIBLE,
                rcCondition (RewriteCandidate.Unify o (o.valueType value)
                  (some text_type) value s).2 value (.Text fv fo fc))
          else (.FAILED, (RewriteCandidate.Unify o (o.valueType value)
                  (some text_type) value s).2))) := by
  refine ⟨?_, ?_, ?_, ?_, ?_, ?_⟩
  · intro fv iv; simp [RewriteCandidate.Bind]
  · intro fv value hk
    cases value <;> simp_all [RewriteCandidate.Bind, Tree.kindIndex]
  · intro fv iv; simp [RewriteCandidate.Bind]
  · intro fv value hk
    cases value <;> simp_all [RewriteCandidate.Bind, Tree.kindIndex]
  · intro fv fo fc iv io ic; simp [RewriteCandidate.Bind]
  · intro fv fo fc value hk
    cases value <;> simp_all [RewriteCandidate.Bind, Tree.kindIndex]

/-- Witness for C3: the amended behaviour at concrete literals: equal
integers bind PERFECT, unequal ones FAILED. -/
theorem C3_literal_binding_witness :
    RewriteCandidate.Bind specOracle (.Name "f") (.Integer 5) (.Integer 5)
      initRCState = (.PERFECT, initRCState) ∧
    RewriteCandidate.Bind specOracle (.Name "f") (.Integer 5) (.Integer 7)
      initRCState = (.FAILED, initRCState) := by
  have h := (C3_literal_binding specOracle (.Name "f") initRCState).1
  refine ⟨?_, ?_⟩
  · simpa using h 5 5
  · simpa using h 5 7

/-- Claim C3, counterexample: binding the literal pattern `4` against the
value `3` (same kind, unequal value) returns FAILED, although the value's
type `integer` unifies with the literal's type, for which the claim
prescribes POSSIBLE with a runtime equality condition. -/
theorem C3_counterexample :
    (RewriteCandidate.Bind specOracle (.Name "f") (.Integer 4) (.Integer 3)
       initRCState).1 = .FAILED ∧
    (RewriteCandidate.Unify specOracle (specOracle.valueType (.Integer 3))
       (some integer_type) (.Integer 3) initRCState).1 = true ∧
    bindLiteralClaimed specOracle (.Integer 4) (.Integer 3) = .POSSIBLE ∧
    BindingStrength.FAILED ≠ .POSSIBLE := by
  refine ⟨rfl, rfl, rfl, by decide⟩

/-- Claim C8: binding a guarded pattern `F when G` never returns PERFECT:
it fails if binding `F` fails, requires the guard to typecheck as boolean,
adds `G = true` as a runtime condition, and returns at most POSSIBLE. -/
theorem C8_guard_weakens (o : TypesOracle) (d F G v : Tree) (s : RCState) :
    ((RewriteCandidate.Bind o d (.Infix "when" F G) v s).1 ≠ .PERFECT) ∧
    ((RewriteCandidate.Bind o d F v s).1 = .FAILED →
       RewriteCandidate.Bind o d (.Infix "when" F G) v s =
         (.FAILED, (RewriteCandidate.Bind o d F v s).2)) ∧
    ((RewriteCandidate.Bind o d (.Infix "when" F G) v s).1 = .POSSIBLE ↔
       ((RewriteCandidate.Bind o d F v s).1 ≠ .FAILED ∧ o.btype G ≠ none ∧
        (RewriteCandidate.Unify o (o.btype G) (some boolean_type) G
           (RewriteCandidate.Bind o d F v s).2).1 = true)) ∧
    ((RewriteCandidate.Bind o d (.Infix "when" F G) v s).1 = .POSSIBLE →
       RewriteCandidate.Bind o d (.Infix "when" F G) v s =
         (.POSSIBLE,
          rcCondition (RewriteCandidate.Unify o (o.btype G) (some boolean_type) G
             (RewriteCandidate.Bind o d F v s).2).2 G xl_true)) := by
  rcases hp : RewriteCandidate.Bind o d F v s with ⟨r0, s0⟩
  by_cases hr : r0 = BindingStrength.FAILED
  · subst hr
    simp [RewriteCandidate.Bind, hp]
  · by_cases hg : o.btype G = none
    · simp [RewriteCandidate.Bind, hp, hr, hg]
    · rcases hu : RewriteCandidate.Unify o (o.btype G) (some boolean_type) G s0
        with ⟨ok, s1⟩
      by_cases hok : ok = true
      · subst hok
        simp [RewriteCandidate.Bind, hp, hr, hg, hu]
      · simp_all [RewriteCandidate.Bind, hp, hr, hg, hu]

theorem parseTail_done (cfg : ParserCfg) (st : PState) (right : Option Tree)
    (pp ip : Int) : (parseTail cfg st right pp ip).done = st.done := by
  unfold parseTail
  rcases st.result with _ | r0 <;> rcases st.left with _ | l <;>
    rcases right with _ | rt <;> dsimp only [] <;> (try split_ifs) <;> simp_all

theorem parseTail_errors (cfg : ParserCfg) (st : PState) (right : Option Tree)
    (pp ip : Int) : (parseTail cfg st right pp ip).errors = st.errors := by
  unfold parseTail
  rcases st.result with _ | r0 <;> rcases st.left with _ | l <;>
    rcases right with _ | rt <;> dsimp only [] <;> (try split_ifs) <;> simp_all

/-- Claim C9: the parser reports mismatched delimiters and unexpected end of
input into the error sink and terminates normally.  Processing EOF (or a
closing parenthesis, or an unindent) always sets `done`; an Error record is
appended exactly when a closing delimiter other than the unindent sentinel
was still expected (for EOF), when the closing parenthesis text differs
from the expected one, or when an unindent arrives while another closing
was expected.  A concrete mismatched parse still returns its best-effort
tree alongside the logged error. -/
theorem C9_parser_error_reporting (cfg : ParserCfg) (st : PState) (v : String) :
    ((parseStep cfg st .eofTok).done = true) ∧
    ((parseStep cfg st .eofTok).errors =
       st.errors ++ (if cfg.closing ≠ "" ∧ cfg.closing ≠ blockUnindent
                     then [PError.unexpectedEOF cfg.closing] else [])) ∧
    ((parseStep cfg st (.parcloseTok v)).done = true) ∧
    ((parseStep cfg st (.parcloseTok v)).errors =
       st.errors ++ (if v ≠ cfg.closing
                     then [PError.mismatchedParen v cfg.closing] else [])) ∧
    ((parseStep cfg st .unindentTok).done = true) ∧
    ((parseStep cfg st .unindentTok).errors =
       st.errors ++ (if cfg.closing ≠ blockUnindent
                     then [PError.mismatchedIndent cfg.closing] else [])) ∧
    ((Parser.Parse ⟨minusSyn, false, ")"⟩
        [.nameTok true "a" true true, .eofTok]).errors =
       [PError.unexpectedEOF ")"]) ∧
    (Parser.ParseTree ⟨minusSyn, false, ")"⟩
        [.nameTok true "a" true true, .eofTok] = some (.Name "a")) := by
  refine ⟨?_, ?_, ?_, ?_, ?_, ?_, by rfl, by rfl⟩ <;>
    (unfold parseStep
     first
       | (rw [parseTail_done]
          try (split_ifs <;> rfl)
          try rfl)
       | (rw [parseTail_errors]
          split_ifs <;> simp_all))

/-- Claim C2 (amended): a name n arriving while a partial result exists and
no infix is pending is treated as infix exactly when infix_priority(n) is
defined and (prefix_priority(n) is undefined, or there was no space before
the token, or there is space after it - a disjunction, not the claimed
conjunction); otherwise as postfix when postfix_priority(n) is defined, and
otherwise as prefix. -/
theorem C2_name_discrimination (syn : SyntaxTable) (n : String)
    (before after : Bool) :
    (classifyName syn n before after = .infixOp ↔
       (syn.InfixPriority n ≠ syn.default_priority ∧
        (syn.PrefixPriority n = syn.default_priority ∨ ¬ before ∨ after))) ∧
    (classifyName syn n before after = .postfixOp ↔
       (¬ (syn.InfixPriority n ≠ syn.default_priority ∧
           (syn.PrefixPriority n = syn.default_priority ∨ ¬ before ∨ after)) ∧
        syn.PostfixPriority n ≠ syn.default_priority)) ∧
    (classifyName syn n before after = .prefixOp ↔
       (¬ (syn.InfixPriority n ≠ syn.default_priority ∧
           (syn.PrefixPriority n = syn.default_priority ∨ ¬ before ∨ after)) ∧
        syn.PostfixPriority n = syn.default_priority)) := by
  unfold classifyName
  by_cases h1 : syn.InfixPriority n ≠ syn.default_priority ∧
      (syn.PrefixPriority n = syn.default_priority ∨ ¬ before ∨ after)
  · rw [if_pos h1]
    exact ⟨Iff.intro (fun _ => h1) (fun _ => rfl),
           Iff.intro (fun h => nomatch h) (fun h => absurd h1 h.1),
           Iff.intro (fun h => nomatch h) (fun h => absurd h1 h.1)⟩
  · rw [if_neg h1]
    by_cases h2 : syn.PostfixPriority n ≠ syn.default_priority
    · rw [if_pos h2]
      exact ⟨Iff.intro (fun h => nomatch h) (fun hc => absurd hc h1),
             Iff.intro (fun _ => ⟨h1, h2⟩) (fun _ => rfl),
             Iff.intro (fun h => nomatch h) (fun h => absurd h.2 h2)⟩
    · rw [if_neg h2]
      rw [not_not] at h2
      exact ⟨Iff.intro (fun h => nomatch h) (fun hc => absurd hc h1),
             Iff.intro (fun h => nomatch h) (fun h => absurd h2 h.2),
             Iff.intro (fun _ => ⟨h1, h2⟩) (fun _ => rfl)⟩

/-- Claim C2, counterexample: with "-" declared both infix and prefix and a
token with no space on either side, the source treats it as an infix (the
parse of `a-b` gives an infix tree), while the claim's conjunctive reading
("no space before but space after") makes it a prefix. -/
theorem C2_counterexample :
    classifyName minusSyn "-" false false = .infixOp ∧
    classifyNameClaimed minusSyn "-" false false = .prefixOp ∧
    NameRole.infixOp ≠ NameRole.prefixOp ∧
    Parser.ParseTree ⟨minusSyn, false, ""⟩
      [.nameTok true "a" true false, .nameTok false "-" false false,
       .nameTok true "b" false true, .eofTok] =
      some (.Infix "-" (.Name "a") (.Name "b")) := by
  refine ⟨rfl, rfl, by decide, by rfl⟩

theorem addKnown_infix_priority (syn : SyntaxTable) (t : String) :
    (addKnown syn t).infix_priority = syn.infix_priority := rfl

theorem addKnown_block_delimiters (syn : SyntaxTable) (t : String) :
    (addKnown syn t).block_delimiters = syn.block_delimiters := rfl

/-- Claim C10: after `Syntax::ReadSyntaxFile` processes a section entry
`BLOCK a b` (with `a`, `b` ordinary tokens, distinct from each other and
from the reader's keywords), the table maps `a` to `b` in
`block_delimiters`, additionally maps `b` to the empty string - so
`IsBlock` reports `b` as a block opening whose closing is empty - and both
`a` and `b` receive the section's current priority in `infix_priority`. -/
theorem C10_block_entry (st : ReaderState) (a b : String)
    (ha : a ∉ syntaxKeywords) (hb : b ∉ syntaxKeywords) (hab : a ≠ b)
    (hdone : st.done = false) :
    ((readSyntax st [.sName "BLOCK", .sName a, .sName b]).syn.block_delimiters.lookup a
       = some b) ∧
    ((readSyntax st [.sName "BLOCK", .sName a, .sName b]).syn.block_delimiters.lookup b
       = some "") ∧
    ((readSyntax st [.sName "BLOCK", .sName a, .sName b]).syn.infix_priority.lookup a
       = some st.priority) ∧
    ((readSyntax st [.sName "BLOCK", .sName a, .sName b]).syn.infix_priority.lookup b
       = some st.priority) ∧
    ((readSyntax st [.sName "BLOCK", .sName a, .sName b]).syn.IsBlock a = some b) ∧
    ((readSyntax st [.sName "BLOCK", .sName a, .sName b]).syn.IsBlock b = some "") ∧
    ((readSyntax st [.sName "BLOCK", .sName a, .sName b]).state = .inBlockSec) := by
  simp only [syntaxKeywords, List.mem_cons, List.mem_singleton, not_or] at ha hb
  obtain ⟨ha1, ha2, ha3, ha4, ha5, ha6, ha7, ha8, ha9, ha10, ha11, ha12, ha13, -⟩ := ha
  obtain ⟨hb1, hb2, hb3, hb4, hb5, hb6, hb7, hb8, hb9, hb10, hb11, hb12, hb13, -⟩ := hb
  obtain ⟨syn0, state0, entry0, prio0, ind0, done0, child0⟩ := st
  simp only [ReaderState.done] at hdone
  subst hdone
  cases state0 <;>
    simp [readSyntax, syntaxStep, STok.textValue, STok.isSymbol,
        addKnown_infix_priority, addKnown_block_delimiters, ha1, ha2, ha3, ha4, ha5, ha6, ha7, ha8,
        ha9, ha10, ha11, ha12, ha13, hb1, hb2, hb3, hb4, hb5, hb6, hb7, hb8,
        hb9, hb10, hb11, hb12, hb13, SyntaxTable.IsBlock, ReadState.idx,
        setEntry_lookup_self, setEntry_lookup_other _ _ _ _ hab,
        setEntry_lookup_other _ _ _ _ (Ne.symm hab)]

/-- Witness for C10: the BLOCK entry at concrete delimiters. -/
theorem C10_block_entry_witness :
    (readSyntax (emptyReaderState .inUnknown 400)
        [.sName "BLOCK", .sName "curly", .sName "endcurly"]).syn.block_delimiters.lookup
      "curly" = some "endcurly" :=
  (C10_block_entry (emptyReaderState .inUnknown 400) "curly" "endcurly"
    (by decide) (by decide) (by decide) rfl).1

theorem makeClosure_marked (mask : Nat) (bound : CTree → CTree → Option CTree)
    (fuel : Nat) (scope l r : CTree) :
    Interpreter.MakeClosure mask bound (fuel + 1) scope (.Prefix true l r) =
      some (.Prefix true l r) := by
  simp [Interpreter.MakeClosure, CTree.kindIndex, makeClosureWrap,
        CTree.closureMarked]

theorem makeClosureWrap_shape (scope v : CTree) :
    ∃ l rr, makeClosureWrap scope v = CTree.Prefix true l rr := by
  unfold makeClosureWrap
  by_cases h : v.kindIndex ≠ 5 ∨ ¬ v.closureMarked = true
  · rw [if_pos h]
    exact ⟨scope, v, rfl⟩
  · rw [if_neg h]
    push_neg at h
    cases v with
    | Prefix m l r =>
      refine ⟨l, r, ?_⟩
      have : m = true := by simpa [CTree.closureMarked] using h.2
      rw [this]
    | Integer v => simp [CTree.kindIndex] at h
    | Real v => simp [CTree.kindIndex] at h
    | Text v o2 c2 => simp [CTree.kindIndex] at h
    | Name v => simp [CTree.kindIndex] at h
    | Block c2 o2 cl => simp [CTree.kindIndex] at h
    | Postfix l r => simp [CTree.kindIndex] at h
    | Infix n l r => simp [CTree.kindIndex] at h

theorem makeClosure_shape (mask : Nat) (bound : CTree → CTree → Option CTree) :
    ∀ (fuel : Nat) (scope v r : CTree),
      Interpreter.MakeClosure mask bound fuel scope v = some r →
      (r.kindIndex < 3 ∧ Context.HasRewritesFor mask r.kindIndex = false) ∨
      (∃ l rr, r = CTree.Prefix true l rr) := by
  intro fuel
  induction fuel with
  | zero => intro scope v r h; simp [Interpreter.MakeClosure] at h
  | succ fuel ih =>
    intro scope v r h
    rw [Interpreter.MakeClosure] at h
    by_cases hc : 3 ≤ v.kindIndex ∨ Context.HasRewritesFor mask v.kindIndex = true
    · rw [if_pos hc] at h
      by_cases hk : v.kindIndex = 3
      · rw [if_pos hk] at h
        rcases hb : bound scope v with _ | b <;> rw [hb] at h <;> dsimp only at h
        · simp only [Option.some.injEq] at h
          subst h
          exact Or.inr (makeClosureWrap_shape scope v)
        · rcases hic : Interpreter.IsClosure b with _ | p <;> rw [hic] at h <;>
            dsimp only at h
          · split at h
            · exact ih _ _ _ h
            · simp only [Option.some.injEq] at h
              subst h
              exact Or.inr (makeClosureWrap_shape _ _)
          · obtain ⟨s2, inside⟩ := p
            split at h
            · exact ih _ _ _ h
            · split at h
              · exact ih _ _ _ h
              · simp only [Option.some.injEq] at h
                subst h
                exact Or.inr (makeClosureWrap_shape _ _)
      · rw [if_neg hk] at h
        simp only [Option.some.injEq] at h
        subst h
        exact Or.inr (makeClosureWrap_shape _ _)
    · rw [if_neg hc] at h
      simp only [Option.some.injEq] at h
      subst h
      left
      push_neg at hc
      exact ⟨by omega, by simpa using hc.2⟩

/-- Claim C4, counterexample: a closure over `scopeOne`, passed to
`MakeClosure` in the different current scope `scopeTwo`, is returned
unchanged - not re-wrapped over the current scope as the claim's
"re-wrapped in a new closure ... if the scope differs" prescribes. -/
theorem C4_counterexample :
    Interpreter.MakeClosure 0 (fun _ _ => none) 5 scopeTwo closureOne =
      some closureOne ∧
    makeClosureClaimed scopeTwo closureOne =
      some (.Prefix true scopeTwo (.Name "x")) ∧
    closureOne ≠ CTree.Prefix true scopeTwo (.Name "x") ∧
    scopeOne ≠ scopeTwo ∧
    Interpreter.IsClosure closureOne = some (scopeOne, .Name "x") := by
  refine ⟨by decide, by decide, by decide, by decide, by decide⟩

/-- Claim C4 (amended): making a closure of a value that is already a
closure (a marked Prefix) returns that closure unchanged, whether or not
its captured scope equals the current scope; and wrapping is idempotent:
re-applying `MakeClosure` to any value it returned gives that value back
unchanged. -/
theorem C4_closure_idempotent :
    (∀ (mask : Nat) (bound : CTree → CTree → Option CTree) (fuel : Nat)
       (scope l r : CTree),
       Interpreter.MakeClosure mask bound (fuel + 1) scope (.Prefix true l r) =
         some (.Prefix true l r)) ∧
    (∀ (mask : Nat) (bound : CTree → CTree → Option CTree) (fuel : Nat)
       (scope v r : CTree),
       Interpreter.MakeClosure mask bound fuel scope v = some r →
       ∀ fuel2 : Nat,
         Interpreter.MakeClosure mask bound (fuel2 + 1) scope r = some r) := by
  refine ⟨makeClosure_marked, ?_⟩
  intro mask bound fuel scope v r h fuel2
  rcases makeClosure_shape mask bound fuel scope v r h with ⟨hk, hbit⟩ | ⟨l, rr, hr⟩
  · have hcon : ¬ (3 ≤ r.kindIndex ∨
        Context.HasRewritesFor mask r.kindIndex = true) := by
      push_neg
      exact ⟨by omega, by simp [hbit]⟩
    rw [Interpreter.MakeClosure]
    rw [if_neg hcon]
  · subst hr
    exact makeClosure_marked mask bound fuel2 scope l rr

/-- Witness for C4: idempotence at a concrete wrap. -/
theorem C4_closure_idempotent_witness :
    Interpreter.MakeClosure 0 (fun _ _ => none) 3 scopeTwo
      (.Prefix true scopeTwo (.Name "y")) =
      some (.Prefix true scopeTwo (.Name "y")) :=
  C4_closure_idempotent.2 0 (fun _ _ => none) 3 scopeTwo (.Name "y")
    (.Prefix true scopeTwo (.Name "y")) (by decide) 2

/-- Claim C5: with "+" declared infix at priority `p`, parsing `a + b + c`
yields the left-associated tree `Infix("+", Infix("+", a, b), c)` when `p`
is even and the right-associated tree `Infix("+", a, Infix("+", b, c))`
when `p` is odd: the parser pops the pending stack using the comparison
`new_priority > (top_priority & ~1)`, implemented in `flushStack`. -/
theorem C5_plus_associativity (p : Int) (hp : p ≠ 0) :
    (p % 2 = 0 →
       Parser.ParseTree (plusCfg p) abcToks =
         some (.Infix "+" (.Infix "+" (.Name "a") (.Name "b")) (.Name "c"))) ∧
    (p % 2 = 1 →
       Parser.ParseTree (plusCfg p) abcToks =
         some (.Infix "+" (.Name "a") (.Infix "+" (.Name "b") (.Name "c")))) := by
  constructor
  · intro he
    by_cases hlo : p < 100
    · simp [Parser.ParseTree, Parser.Parse, parseLoop, parseStep, parseTail,
            classifyName, initPState, plusCfg, plusSyn, abcToks,
            SyntaxTable.InfixPriority, SyntaxTable.PrefixPriority,
            SyntaxTable.PostfixPriority, List.lookup, flushStack, combine,
            CreatePrefix, parseDrain, hp, hlo, he]
    · simp [Parser.ParseTree, Parser.Parse, parseLoop, parseStep, parseTail,
            classifyName, initPState, plusCfg, plusSyn, abcToks,
            SyntaxTable.InfixPriority, SyntaxTable.PrefixPriority,
            SyntaxTable.PostfixPriority, List.lookup, flushStack, combine,
            CreatePrefix, parseDrain, hp, hlo, he]
  · intro ho
    have hgt : p > p - 1 := by omega
    by_cases hlo : p < 100
    · simp [Parser.ParseTree, Parser.Parse, parseLoop, parseStep, parseTail,
            classifyName, initPState, plusCfg, plusSyn, abcToks,
            SyntaxTable.InfixPriority, SyntaxTable.PrefixPriority,
            SyntaxTable.PostfixPriority, List.lookup, flushStack, combine,
            CreatePrefix, parseDrain, hp, hlo, ho, hgt]
    · simp [Parser.ParseTree, Parser.Parse, parseLoop, parseStep, parseTail,
            classifyName, initPState, plusCfg, plusSyn, abcToks,
            SyntaxTable.InfixPriority, SyntaxTable.PrefixPriority,
            SyntaxTable.PostfixPriority, List.lookup, flushStack, combine,
            CreatePrefix, parseDrain, hp, hlo, ho, hgt]

/-- Witness for C5: the associativity at concrete even and odd priorities. -/
theorem C5_plus_associativity_witness :
    Parser.ParseTree (plusCfg 290) abcToks =
      some (.Infix "+" (.Infix "+" (.Name "a") (.Name "b")) (.Name "c")) ∧
    Parser.ParseTree (plusCfg 291) abcToks =
      some (.Infix "+" (.Name "a") (.Infix "+" (.Name "b") (.Name "c"))) :=
  ⟨(C5_plus_associativity 290 (by decide)).1 (by decide),
   (C5_plus_associativity 291 (by decide)).2 (by decide)⟩

end ELFE
